import Mathlib

/-!
Verification model of the weblin repository (Go).

The definitions below are shallow embeddings of the Go source:
strings are modelled through their character lists, Go's `int`
(64-bit on linux/amd64) is modelled as `Int` with the explicit
clamping behaviour of `strconv.Atoi`, and the effectful supervisor
functions (`StartServer`, `StopServer`, `isRunning`) are modelled as
pure functions over an explicit environment that records the outcome
of every OS interaction the code performs.
-/

namespace Weblin

/-! Section: Go string primitives (package `strings`, `strconv`) -/

/-- Go's `unicode.IsSpace` restricted to the Latin-1 range, which is what
`strings.TrimSpace`/`strings.Fields` test on each rune.  The higher
Unicode space code points are irrelevant to every claim. -/
def goIsSpace (c : Char) : Bool :=
  c == ' ' || c == '\t' || c == '\n' || c == '\x0b' || c == '\x0c' ||
  c == '\r' || c == '\u0085' || c == '\u00A0'

/-- Model of `strings.TrimSpace` on the character list: drop spaces from both ends. -/
def goTrimList (l : List Char) : List Char :=
  ((l.dropWhile goIsSpace).reverse.dropWhile goIsSpace).reverse

/-- Model of `strings.TrimSpace`. -/
def goTrim (s : String) : String :=
  String.mk (goTrimList s.data)

/-- Model of `strings.HasPrefix`. -/
def goStartsWith (s pre : String) : Bool :=
  pre.data.isPrefixOf s.data

/-- Accumulator loop of `strings.Fields`: split around runs of whitespace,
`acc` holds the (reversed) characters of the word being read. -/
def goFieldsAux : List Char → List Char → List (List Char)
  | [], acc => if acc.isEmpty then [] else [acc.reverse]
  | c :: cs, acc =>
    if goIsSpace c then
      if acc.isEmpty then goFieldsAux cs []
      else acc.reverse :: goFieldsAux cs []
    else goFieldsAux cs (c :: acc)

/-- Model of `strings.Fields`. -/
def goFields (s : String) : List String :=
  (goFieldsAux s.data []).map String.mk

/-- Model of `strings.ToLower` (ASCII fragment; the only letters the code ever
compares after lowering are ASCII). -/
def goToLower (s : String) : String :=
  String.mk (s.data.map Char.toLower)

/-- Model of `strings.LastIndex s sub` for a one-character `sub`, as an index into
the character list (the characters searched for, '/' and '.', are ASCII,
so byte indices and character indices cut the string at the same place). -/
def goLastIndex (c : Char) : List Char → Option Nat
  | [] => none
  | x :: xs =>
    match goLastIndex c xs with
    | some i => some (i + 1)
    | none => if x = c then some 0 else none

/-- Maximum value of Go's 64-bit `int`. -/
def maxInt64 : Int := 9223372036854775807

/-- Minimum value of Go's 64-bit `int`. -/
def minInt64 : Int := -9223372036854775808

/-- Magnitude part of `strconv.Atoi` after the optional sign: every
character must be a decimal digit and the result is clamped to the
`int64` range with the error flag set, exactly as `strconv.ParseInt`
reports `ErrRange` with the clamped value and `ErrSyntax` with value 0. -/
def goAtoiMag (neg : Bool) (ds : List Char) : Int × Bool :=
  if ds.isEmpty || !(ds.all Char.isDigit) then (0, true)
  else
    let n : Nat := ds.foldl (fun acc d => acc * 10 + (d.toNat - 48)) 0
    let v : Int := if neg then -(n : Int) else (n : Int)
    if v > maxInt64 then (maxInt64, true)
    else if v < minInt64 then (minInt64, true)
    else (v, false)

/-- Model of `strconv.Atoi` (= `ParseInt(s, 10, 0)` with 64-bit `int`): result
value together with an error flag (`true` = non-nil error). -/
def goAtoi (s : String) : Int × Bool :=
  match s.data with
  | [] => (0, true)
  | '-' :: ds => goAtoiMag true ds
  | '+' :: ds => goAtoiMag false ds
  | ds => goAtoiMag false ds

/-! Section: Package `config` -/

/-- The `config.Config` struct. -/
structure Config where
  MaxLogFileSize : Int
  MaxLogFileBackup : Int
  MaxLogFileAge : Int
  CompBakLogFile : Bool
  deriving DecidableEq, Repr

/-- The values installed by `config.init`. -/
def defaultConf : Config :=
  { MaxLogFileSize := 100
    MaxLogFileBackup := 10
    MaxLogFileAge := 90
    CompBakLogFile := true }

/-- Exit code `config.ExitCodeSuccess`. -/
def ExitCodeSuccess : Nat := 0
/-- Exit code `config.ExitCodeFailure`. -/
def ExitCodeFailure : Nat := 1
/-- Exit code `config.ExitCodeFatal`. -/
def ExitCodeFatal : Nat := 2

/-- The parsed configuration map (`map[string]string`). -/
def ConfigMap : Type := String → Option String

/-- Storing `config[key] = value` on the map model: later stores override earlier ones. -/
def mapInsert (m : ConfigMap) (k v : String) : ConfigMap :=
  fun q => if q = k then some v else m q

/-- Body of the scanner loop of `config.parseConfig`: trim the line, skip
empties/comments, split into fields, store only exactly-two-token lines. -/
def processLine (config : ConfigMap) (text : String) : ConfigMap :=
  let line := goTrim text
  if line == "" || goStartsWith line "#" then config
  else
    match goFields line with
    | [key, value] => mapInsert config key value
    | _ => config

/-- Model of `config.parseConfig` on the list of lines of an already-readable file
(the `os.Open`/scanner error paths return the error instead). -/
def parseConfigLines (lines : List String) : ConfigMap :=
  lines.foldl processLine (fun _ => none)

/-- First block of `config.LoadConfig`: the `MaxLogFileSize` entry.  Note
the source tests `err != nil` (a *non-nil* `strconv.Atoi` error) before
applying the range check and the assignment. -/
def stepMaxLogFileSize (config : ConfigMap) (c : Config) : Config :=
  match config "MaxLogFileSize" with
  | some valueStr =>
    let r := goAtoi valueStr
    if r.2 = true ∧ 1 ≤ r.1 ∧ r.1 ≤ 1000 then { c with MaxLogFileSize := r.1 } else c
  | none => c

/-- Second block of `config.LoadConfig`: the `MaxLogFileBackup` entry
(same `err != nil` test as in the source). -/
def stepMaxLogFileBackup (config : ConfigMap) (c : Config) : Config :=
  match config "MaxLogFileBackup" with
  | some valueStr =>
    let r := goAtoi valueStr
    if r.2 = true ∧ 1 ≤ r.1 ∧ r.1 ≤ 100 then { c with MaxLogFileBackup := r.1 } else c
  | none => c

/-- Third block of `config.LoadConfig`: the `MaxLogFileAge` entry
(same `err != nil` test as in the source). -/
def stepMaxLogFileAge (config : ConfigMap) (c : Config) : Config :=
  match config "MaxLogFileAge" with
  | some valueStr =>
    let r := goAtoi valueStr
    if r.2 = true ∧ 1 ≤ r.1 ∧ r.1 ≤ 365 then { c with MaxLogFileAge := r.1 } else c
  | none => c

/-- Fourth block of `config.LoadConfig`: the `CompressBackupLogFile`
entry, compared case-insensitively against `"no"`. -/
def stepCompBakLogFile (config : ConfigMap) (c : Config) : Config :=
  match config "CompressBackupLogFile" with
  | some valueStr =>
    if goToLower valueStr = "no" then { c with CompBakLogFile := false } else c
  | none => c

/-- Model of `config.LoadConfig` after a successful parse, acting on an explicit
current configuration (the Go code mutates the package-global `Conf`,
whose fields were set by `config.init`): the four key blocks of the
source body, run in source order. -/
def LoadConfig (config : ConfigMap) (c0 : Config) : Config :=
  stepCompBakLogFile config
    (stepMaxLogFileAge config (stepMaxLogFileBackup config (stepMaxLogFileSize config c0)))

/-- Loading a configuration file presented as its list of lines, starting
from the compiled-in defaults. -/
def loadConfigLines (lines : List String) : Config :=
  LoadConfig (parseConfigLines lines) defaultConf

/-! Section: Package `logger`: the caller-annotation encoder -/

/-- Model of `zapcore.EntryCaller`: the reporting source location handed to the
encoder. -/
structure EntryCaller where
  Defined : Bool
  File : String
  Line : Nat
  Function : String

/-- Model of `zapcore.EntryCaller.FullPath()` (with `Defined` true): `file:line`. -/
def fullPath (caller : EntryCaller) : String :=
  caller.File ++ ":" ++ toString caller.Line

/-- The tag rendered by the closure returned from
`SyncLogger.wrapShortCallerEncoder`, before the optional square
brackets are added. -/
def shortCallerTag (caller : EntryCaller) : String :=
  if !caller.Defined then "undefined"
  else
    match goLastIndex '/' caller.File.data with
    | none => fullPath caller ++ "-" ++ caller.Function ++ "()"
    | some fileIdx =>
      match goLastIndex '.' caller.Function.data with
      | none => fullPath caller ++ "-" ++ caller.Function ++ "()"
      | some funcIdx =>
        String.mk (caller.File.data.drop (fileIdx + 1)) ++ ":" ++
          toString caller.Line ++ "-" ++
          String.mk (caller.Function.data.drop (funcIdx + 1)) ++ "()"

/-- Model of `SyncLogger.putSquareBracketsOnCaller`. -/
def putSquareBracketsOnCaller (isConsole : Bool) (format : String) : String :=
  if isConsole then "[" ++ format ++ "]" else format

/-! Section: Packages `process`, `file` and `server`: the process supervisor

The supervisor talks to the operating system.  Every OS interaction is
modelled by a field of `Env` recording its outcome, so the supervisor
functions become pure functions of the environment. -/

/-- Signal number of `syscall.SIGTERM`. -/
def SIGTERM : Nat := 15

/-- Outcome of every OS interaction `StartServer` / `StopServer`
performs.  `pidRead` is the content of the PID file when `os.Open` plus
`io.ReadAll` succeed on it, `none` when either fails (file absent or
unreadable).  `findOk`/`signalOk` are the outcomes of `os.FindProcess`
and `Process.Signal` (signal 0 is the liveness probe). -/
structure Env where
  cmdIsNil : Bool
  cmdUse : String
  chdirOk : Bool
  pidRead : Option String
  findOk : Int → Bool
  signalOk : Int → Nat → Bool
  daemonizeOk : Bool
  writePidOk : Bool
  selfPid : Int

/-- Model of `process.IsProcessRun`: `os.FindProcess` must succeed and the
zero-signal probe must be answered. -/
def IsProcessRun (env : Env) (pid : Int) : Bool :=
  env.findOk pid && env.signalOk pid 0

/-- Model of `server.isRunning` (on a non-nil out-parameter, which is how both
callers invoke it): `some pid` models `true` with `*pid` set, `none`
models `false`.  Any open/read failure and any `strconv.Atoi` error
yield "not running", never an error. -/
def isRunning (env : Env) : Option Int :=
  match env.pidRead with
  | none => none
  | some pidStr =>
    let r := goAtoi pidStr
    if r.2 then none
    else if IsProcessRun env r.1 then some r.1 else none

/-- Model of `process.SendSignal`: `true` in the first component when no error
was returned; the second component lists the delivery attempts actually
made (none when `os.FindProcess` already failed). -/
def SendSignal (env : Env) (pid : Int) (sig : Nat) : Bool × List (Int × Nat) :=
  if env.findOk pid then (env.signalOk pid sig, [(pid, sig)]) else (false, [])

/-- Result of `server.StopServer`: exit status, whether the returned
error was nil, and the signals sent through `process.SendSignal`. -/
structure StopResult where
  code : Nat
  errNil : Bool
  signals : List (Int × Nat)
  deriving DecidableEq, Repr

/-- Model of `server.StopServer`. -/
def StopServer (env : Env) : StopResult :=
  if env.cmdIsNil then ⟨ExitCodeFailure, false, []⟩
  else if !env.chdirOk then ⟨ExitCodeFailure, false, []⟩
  else
    match isRunning env with
    | none => ⟨ExitCodeSuccess, true, []⟩
    | some pid =>
      let r := SendSignal env pid SIGTERM
      if r.1 then ⟨ExitCodeSuccess, true, r.2⟩
      else ⟨ExitCodeFailure, false, r.2⟩

/-- Result of `server.StartServer`: exit status, nil-ness of the
returned error, whether the process daemonized, whether the PID file
was written, the PID file content afterwards, and the debug flag. -/
structure StartResult where
  code : Nat
  errNil : Bool
  daemonized : Bool
  pidFileWritten : Bool
  pidFileAfter : Option String
  debugMode : Bool
  deriving DecidableEq, Repr

/-- Model of `server.StartServer`: nil-command and chdir failures return
`Failure`; a live instance returns `Success` untouched; then
`process.DaemonizeProcess` and `file.WriteDataToTextFile` failures each
return `Failure`; otherwise the daemon records its PID (written with
`%v`, so the bare decimal), installs its signal handling, initializes,
blocks until SIGINT/SIGTERM and finally returns `Success`. -/
def StartServer (env : Env) : StartResult :=
  if env.cmdIsNil then ⟨ExitCodeFailure, false, false, false, env.pidRead, false⟩
  else if !env.chdirOk then ⟨ExitCodeFailure, false, false, false, env.pidRead, false⟩
  else
    match isRunning env with
    | some _ => ⟨ExitCodeSuccess, true, false, false, env.pidRead, false⟩
    | none =>
      if !env.daemonizeOk then ⟨ExitCodeFailure, false, false, false, env.pidRead, false⟩
      else if !env.writePidOk then ⟨ExitCodeFailure, false, true, false, env.pidRead, false⟩
      else
        ⟨ExitCodeSuccess, true, true, true, some (toString env.selfPid),
          env.cmdUse == "debug"⟩

/-! Section: Definitions modelled from the specification's words
(used only on the specification side of refinement claims) -/

/-- Modelled from the spec: the key/value pair a configuration line
contributes, if any — trim, drop empty and `#` lines, keep exactly-two-
token lines. -/
def lineKV (text : String) : Option (String × String) :=
  let line := goTrim text
  if line == "" || goStartsWith line "#" then none
  else
    match goFields line with
    | [key, value] => some (key, value)
    | _ => none

/-- Modelled from the spec: "last occurrence of a duplicate key wins" —
the value of the last pair carrying the requested key. -/
def lastValFrom (ps : List (String × String)) (k : String) : Option String :=
  match ps with
  | [] => none
  | p :: rest =>
    match lastValFrom rest k with
    | some v => some v
    | none => if p.1 = k then some p.2 else none

/-! Section: Facts about `strconv.Atoi` error results -/

/-- When `goAtoiMag` reports an error, the accompanying value is 0 (syntax
error) or one of the two clamped range-error values. -/
lemma goAtoiMag_err (neg : Bool) (ds : List Char) :
    goAtoiMag neg ds = (0, true) ∨ goAtoiMag neg ds = (maxInt64, true) ∨
    goAtoiMag neg ds = (minInt64, true) ∨ (goAtoiMag neg ds).2 = false := by
  simp only [goAtoiMag]
  repeat' split
  all_goals simp

/-- When `goAtoi` reports an error, the accompanying value is 0, the
maximal `int64` or the minimal `int64`. -/
lemma goAtoi_err (s : String) :
    goAtoi s = (0, true) ∨ goAtoi s = (maxInt64, true) ∨
    goAtoi s = (minInt64, true) ∨ (goAtoi s).2 = false := by
  simp only [goAtoi]
  split
  · exact Or.inl rfl
  · exact goAtoiMag_err true _
  · exact goAtoiMag_err false _
  · exact goAtoiMag_err false _

/-- The update guard of `LoadConfig`, which demands a *non-nil* `Atoi`
error together with a value inside `[1, hi]` for `hi ≤ 1000`, can never
hold: an errored conversion only carries 0 or a clamped extreme value. -/
lemma atoi_guard_false (s : String) (hi : Int) (hhi : hi ≤ 1000) :
    ¬((goAtoi s).2 = true ∧ 1 ≤ (goAtoi s).1 ∧ (goAtoi s).1 ≤ hi) := by
  rintro ⟨he, hlo, hup⟩
  rcases goAtoi_err s with h | h | h | h
  · rw [h] at hlo
    norm_num at hlo
  · rw [h] at hup
    simp only [maxInt64] at hup
    omega
  · rw [h] at hlo
    simp only [minInt64] at hlo
    omega
  · rw [he] at h
    cases h

/-- The `MaxLogFileSize` block never changes the configuration: its
guard requires a failed conversion together with an in-range value. -/
lemma stepMaxLogFileSize_id (m : ConfigMap) (c : Config) :
    stepMaxLogFileSize m c = c := by
  unfold stepMaxLogFileSize
  cases m "MaxLogFileSize" with
  | none => rfl
  | some v => exact if_neg (atoi_guard_false v 1000 (by norm_num))

/-- The `MaxLogFileBackup` block never changes the configuration. -/
lemma stepMaxLogFileBackup_id (m : ConfigMap) (c : Config) :
    stepMaxLogFileBackup m c = c := by
  unfold stepMaxLogFileBackup
  cases m "MaxLogFileBackup" with
  | none => rfl
  | some v => exact if_neg (atoi_guard_false v 100 (by norm_num))

/-- The `MaxLogFileAge` block never changes the configuration. -/
lemma stepMaxLogFileAge_id (m : ConfigMap) (c : Config) :
    stepMaxLogFileAge m c = c := by
  unfold stepMaxLogFileAge
  cases m "MaxLogFileAge" with
  | none => rfl
  | some v => exact if_neg (atoi_guard_false v 365 (by norm_num))

/-- Consequently `LoadConfig` reduces to its compression block alone. -/
lemma LoadConfig_eq_comp_step (m : ConfigMap) (c0 : Config) :
    LoadConfig m c0 = stepCompBakLogFile m c0 := by
  rw [LoadConfig, stepMaxLogFileSize_id, stepMaxLogFileBackup_id, stepMaxLogFileAge_id]

/-- The compression block never touches `MaxLogFileSize`. -/
lemma LoadConfig_size (m : ConfigMap) (c0 : Config) :
    (LoadConfig m c0).MaxLogFileSize = c0.MaxLogFileSize := by
  rw [LoadConfig_eq_comp_step]
  unfold stepCompBakLogFile
  cases m "CompressBackupLogFile" with
  | none => rfl
  | some v => dsimp only; split <;> rfl

/-- Value of `CompBakLogFile` after `LoadConfig`, as a function of the
`CompressBackupLogFile` entry alone. -/
lemma LoadConfig_comp (m : ConfigMap) (c0 : Config) :
    (LoadConfig m c0).CompBakLogFile =
      match m "CompressBackupLogFile" with
      | some valueStr => if goToLower valueStr = "no" then false else c0.CompBakLogFile
      | none => c0.CompBakLogFile := by
  rw [LoadConfig_eq_comp_step]
  unfold stepCompBakLogFile
  cases m "CompressBackupLogFile" with
  | none => rfl
  | some v => dsimp only; split <;> rfl

/-! Section: Claims about `config.LoadConfig` -/

/-- C1: the claim says that a parsed line assigning a recognized integer
key an in-range value makes `LoadConfig` install that value.  The code
does the opposite: `MaxLogFileSize 500` parses to the value `500`, the
conversion succeeds and `500` lies in `[1, 1000]`, yet the resulting
setting stays at the compiled-in default `100`, because the update guard
requires a *non-nil* conversion error (`err != nil` in the source where
the surrounding code and the field documentation clearly intend
`err == nil`). -/
theorem c1_valid_value_is_dropped :
    parseConfigLines ["MaxLogFileSize 500"] "MaxLogFileSize" = some "500" ∧
    goAtoi "500" = (500, false) ∧
    (loadConfigLines ["MaxLogFileSize 500"]).MaxLogFileSize = 100 := by
  decide

/-- C3: a configuration file whose `MaxLogFileSize` line carries a value
that is out of `[1, 1000]` or fails integer conversion leaves the
setting at the default `100` — never the out-of-range value and never
zero. -/
theorem c3_out_of_range_size_keeps_default (lines : List String) (v : String)
    (_hv : parseConfigLines lines "MaxLogFileSize" = some v)
    (_hbad : (goAtoi v).2 = true ∨ ¬(1 ≤ (goAtoi v).1 ∧ (goAtoi v).1 ≤ 1000)) :
    (loadConfigLines lines).MaxLogFileSize = 100 := by
  unfold loadConfigLines
  rw [LoadConfig_size]
  rfl

/-- C3 witness: the concrete file `MaxLogFileSize 5000` is out of range
and the loaded setting is the default `100`. -/
theorem c3_witness :
    (parseConfigLines ["MaxLogFileSize 5000"] "MaxLogFileSize" = some "5000" ∧
      ¬(1 ≤ (goAtoi "5000").1 ∧ (goAtoi "5000").1 ≤ 1000)) ∧
    (loadConfigLines ["MaxLogFileSize 5000"]).MaxLogFileSize = 100 :=
  ⟨⟨by decide, by decide⟩,
    c3_out_of_range_size_keeps_default ["MaxLogFileSize 5000"] "5000"
      (by decide) (Or.inr (by decide))⟩

/-- C8 counterexample: the claim says compression is disabled *exactly*
when the `CompressBackupLogFile` value is the string `no`.  The source
lowercases the value first, so the value `NO` also disables compression
while not being equal to `no`. -/
theorem c8_counterexample :
    ¬(((loadConfigLines ["CompressBackupLogFile NO"]).CompBakLogFile = false) ↔
      parseConfigLines ["CompressBackupLogFile NO"] "CompressBackupLogFile" = some "no") := by
  decide

/-- C8 amended: after `LoadConfig` from the defaults, `CompBakLogFile`
is `false` exactly when the `CompressBackupLogFile` entry is present
with a value whose lowercasing is `no`; for any other value, or when the
key is absent, the default `true` is kept. -/
theorem c8_comp_disabled_iff_lowercase_no (m : ConfigMap) :
    (LoadConfig m defaultConf).CompBakLogFile = false ↔
      ∃ v, m "CompressBackupLogFile" = some v ∧ goToLower v = "no" := by
  rw [LoadConfig_comp]
  cases h : m "CompressBackupLogFile" with
  | none => simp [defaultConf]
  | some v =>
    by_cases h2 : goToLower v = "no"
    · simp [h2]
    · simp [defaultConf, h2]

/-! Section: Claim about `config.parseConfig` -/

/-- Lemma: `processLine` refactored through the spec-side classifier: a line
either contributes nothing or stores its two tokens. -/
lemma processLine_eq_lineKV (config : ConfigMap) (text : String) :
    processLine config text =
      match lineKV text with
      | none => config
      | some (k, v) => mapInsert config k v := by
  simp only [processLine, lineKV]
  split
  · rfl
  · split <;> rfl

/-- The fold of `parseConfig` looked up at a key equals the last stored
occurrence of the key, falling back to the initial map. -/
lemma foldl_processLine (lines : List String) (config : ConfigMap) (k : String) :
    lines.foldl processLine config k =
      match lastValFrom (lines.filterMap lineKV) k with
      | some v => some v
      | none => config k := by
  induction lines generalizing config with
  | nil => rfl
  | cons t rest ih =>
    rw [List.foldl_cons, ih (processLine config t), List.filterMap_cons]
    rw [processLine_eq_lineKV config t]
    cases hkv : lineKV t with
    | none => rfl
    | some p =>
      obtain ⟨k0, v0⟩ := p
      simp only [lastValFrom]
      cases lastValFrom (List.filterMap lineKV rest) k with
      | some v => rfl
      | none =>
        simp only [mapInsert]
        by_cases hk : k = k0
        · subst hk
          simp
        · rw [if_neg hk, if_neg (fun h => hk h.symm)]

/-- C7: `parseConfig` processes the file line by line: each line is
trimmed, empty and `#`-prefixed lines are skipped, lines that do not
split into exactly two whitespace-separated tokens are skipped, a
two-token line stores key/value in the map, and looking up any key in
the final map yields the last valid occurrence's value. -/
theorem c7_parse_contract :
    (∀ (config : ConfigMap) (text : String),
      (goTrim text = "" ∨ goStartsWith (goTrim text) "#" = true ∨
        (goFields (goTrim text)).length ≠ 2) →
      processLine config text = config) ∧
    (∀ (config : ConfigMap) (text k v : String),
      goTrim text ≠ "" → goStartsWith (goTrim text) "#" = false →
      goFields (goTrim text) = [k, v] →
      processLine config text = mapInsert config k v) ∧
    (∀ (lines : List String) (k : String),
      parseConfigLines lines k = lastValFrom (lines.filterMap lineKV) k) := by
  refine ⟨?_, ?_, ?_⟩
  · intro config text h
    simp only [processLine]
    rcases h with h | h | h
    · simp [h]
    · simp [h]
    · split
      · rfl
      · split
        · next k v heq => rw [heq] at h; simp at h
        · rfl
  · intro config text k v h1 h2 h3
    simp only [processLine]
    rw [if_neg (by simp [h1, h2]), h3]
  · intro lines k
    unfold parseConfigLines
    rw [foldl_processLine]
    cases lastValFrom (lines.filterMap lineKV) k <;> rfl

/-- C7 witness: a comment line is skipped, a padded two-token line is
stored trimmed, and with a duplicated key the last occurrence wins. -/
theorem c7_witness :
    ((goTrim "  # note" = "" ∨ goStartsWith (goTrim "  # note") "#" = true ∨
        (goFields (goTrim "  # note")).length ≠ 2) ∧
      processLine (fun _ => none) "  # note" = (fun _ => none)) ∧
    (goTrim " key  val " ≠ "" ∧ goStartsWith (goTrim " key  val ") "#" = false ∧
      goFields (goTrim " key  val ") = ["key", "val"] ∧
      processLine (fun _ => none) " key  val " = mapInsert (fun _ => none) "key" "val") ∧
    (parseConfigLines ["a 1", "a 2"] "a" =
      lastValFrom (["a 1", "a 2"].filterMap lineKV) "a" ∧
      parseConfigLines ["a 1", "a 2"] "a" = some "2") :=
  ⟨⟨Or.inr (Or.inl (by decide)),
      c7_parse_contract.1 (fun _ => none) "  # note" (Or.inr (Or.inl (by decide)))⟩,
    ⟨by decide, by decide, by decide,
      c7_parse_contract.2.1 (fun _ => none) " key  val " "key" "val"
        (by decide) (by decide) (by decide)⟩,
    ⟨c7_parse_contract.2.2 ["a 1", "a 2"] "a", by decide⟩⟩

/-! Section: Claim about the caller-annotation encoder -/

/-- Finding with `strings.LastIndex` and a one-character needle yields finds nothing
exactly when the character does not occur. -/
lemma goLastIndex_eq_none (c : Char) (l : List Char) :
    goLastIndex c l = none ↔ c ∉ l := by
  induction l with
  | nil => simp [goLastIndex]
  | cons x xs ih =>
    simp only [goLastIndex]
    cases h : goLastIndex c xs with
    | some i =>
      have hmem : c ∈ xs := by
        by_contra hc
        rw [ih.mpr hc] at h
        cases h
      simp [hmem]
    | none =>
      have hx : c ∉ xs := ih.mp h
      by_cases hxc : x = c
      · subst hxc
        simp
      · simp [hxc, hx, Ne.symm hxc]

/-- Model of `strings.LastIndex` on a list whose last occurrence of `c` is at
position `a.length`. -/
lemma goLastIndex_append (c : Char) (a b : List Char) (hb : c ∉ b) :
    goLastIndex c (a ++ c :: b) = some a.length := by
  induction a with
  | nil =>
    simp only [List.nil_append, goLastIndex]
    rw [(goLastIndex_eq_none c b).mpr hb]
    simp
  | cons x xs ih =>
    simp only [List.cons_append, goLastIndex, List.append_eq, ih, List.length_cons]

/-- Dropping everything up to and including a distinguished element. -/
lemma drop_length_cons (a b : List Char) (c : Char) :
    (a ++ c :: b).drop (a.length + 1) = b := by
  induction a with
  | nil => rfl
  | cons x xs ih => exact ih

/-- A string that ends in `()` is not empty. -/
lemma append_parens_ne_empty (s : String) : s ++ "()" ≠ "" := by
  intro h
  have h2 := congrArg String.data h
  rw [String.data_append] at h2
  simp at h2

/-- C9: the caller tag is `undefined` for an undefined caller; the full
`file:line-Function()` form when the file path has no `/` or the
function name has no `.`; the shortened `shortFile:line-shortFunc()`
form when both separators are present; and it is never empty. -/
theorem c9_caller_tag :
    (∀ caller : EntryCaller, caller.Defined = false →
      shortCallerTag caller = "undefined") ∧
    (∀ caller : EntryCaller, caller.Defined = true →
      ('/' ∉ caller.File.data ∨ '.' ∉ caller.Function.data) →
      shortCallerTag caller = fullPath caller ++ "-" ++ caller.Function ++ "()") ∧
    (∀ (caller : EntryCaller) (a b p q : List Char), caller.Defined = true →
      caller.File.data = a ++ '/' :: b → '/' ∉ b →
      caller.Function.data = p ++ '.' :: q → '.' ∉ q →
      shortCallerTag caller =
        String.mk b ++ ":" ++ toString caller.Line ++ "-" ++ String.mk q ++ "()") ∧
    (∀ caller : EntryCaller, shortCallerTag caller ≠ "") := by
  refine ⟨?_, ?_, ?_, ?_⟩
  · intro caller h
    simp [shortCallerTag, h]
  · intro caller h hsep
    simp only [shortCallerTag, h, Bool.not_true, Bool.false_eq_true, if_false]
    rcases hsep with hs | hs
    · rw [(goLastIndex_eq_none _ _).mpr hs]
    · cases hfile : goLastIndex '/' caller.File.data with
      | none => rfl
      | some i =>
        dsimp only
        rw [(goLastIndex_eq_none _ _).mpr hs]
  · intro caller a b p q h hfile hb hfun hq
    simp only [shortCallerTag, h, Bool.not_true, Bool.false_eq_true, if_false]
    rw [hfile, hfun, goLastIndex_append '/' a b hb, goLastIndex_append '.' p q hq]
    dsimp only
    rw [drop_length_cons, drop_length_cons]
  · intro caller
    simp only [shortCallerTag]
    split
    · decide
    · split
      · exact append_parens_ne_empty _
      · split
        · exact append_parens_ne_empty _
        · exact append_parens_ne_empty _

/-- C9 witness: the spec's own example — location `/a/b/file.go`,
symbol `pkg.Func`, line 7 — renders as `file.go:7-Func()`; an undefined
caller renders as `undefined`; both tags are non-empty. -/
theorem c9_witness :
    shortCallerTag ⟨true, "/a/b/file.go", 7, "pkg.Func"⟩ = "file.go:7-Func()" ∧
    shortCallerTag ⟨false, "", 0, ""⟩ = "undefined" ∧
    shortCallerTag ⟨true, "/a/b/file.go", 7, "pkg.Func"⟩ ≠ "" := by
  refine ⟨?_, c9_caller_tag.1 ⟨false, "", 0, ""⟩ rfl, c9_caller_tag.2.2.2 _⟩
  have h := c9_caller_tag.2.2.1 ⟨true, "/a/b/file.go", 7, "pkg.Func"⟩
    "/a/b".data "file.go".data "pkg".data "Func".data rfl (by decide) (by decide)
    (by decide) (by decide)
  rw [h]
  decide

/-- The two non-success exit codes are distinct. -/
lemma failure_ne_fatal : ExitCodeFailure ≠ ExitCodeFatal := by decide

/-- An environment whose PID file cannot be read never counts as a
running instance. -/
lemma isRunning_none (cmdIsNil : Bool) (cmdUse : String) (chdirOk : Bool)
    (findOk : Int → Bool) (signalOk : Int → Nat → Bool)
    (daemonizeOk writePidOk : Bool) (selfPid : Int) :
    isRunning ⟨cmdIsNil, cmdUse, chdirOk, none, findOk, signalOk,
      daemonizeOk, writePidOk, selfPid⟩ = none := rfl

/-! Section: Claims about the process supervisor -/

/-- C2 counterexample: when daemonizing fails, and likewise when the
PID-file write fails, `StartServer` returns `ExitCodeFailure` (1) — not
`ExitCodeFatal` (2) as the claim states. -/
theorem c2_counterexample :
    (StartServer ⟨false, "start", true, none, fun _ => true, fun _ _ => true,
        false, true, 42⟩).code = ExitCodeFailure ∧
    (StartServer ⟨false, "start", true, none, fun _ => true, fun _ _ => true,
        false, true, 42⟩).code ≠ ExitCodeFatal ∧
    (StartServer ⟨false, "start", true, none, fun _ => true, fun _ _ => true,
        true, false, 42⟩).code = ExitCodeFailure ∧
    (StartServer ⟨false, "start", true, none, fun _ => true, fun _ _ => true,
        true, false, 42⟩).code ≠ ExitCodeFatal := by
  decide

/-- C2 amended: when `StartServer`'s daemonize attempt or its PID-file
write fails, it returns the recoverable `Failure` outcome (exit code 1
with a non-nil error), never the `Fatal` outcome (2). -/
theorem c2_daemonize_or_pidwrite_failure_returns_failure (env : Env)
    (hcmd : env.cmdIsNil = false) (hcd : env.chdirOk = true)
    (hidle : isRunning env = none)
    (hfail : env.daemonizeOk = false ∨
      (env.daemonizeOk = true ∧ env.writePidOk = false)) :
    (StartServer env).code = ExitCodeFailure ∧ (StartServer env).errNil = false ∧
    (StartServer env).code ≠ ExitCodeFatal := by
  rcases hfail with h | ⟨h1, h2⟩
  · simp [StartServer, hcmd, hcd, hidle, h, ExitCodeFailure, ExitCodeFatal]
  · simp [StartServer, hcmd, hcd, hidle, h1, h2, ExitCodeFailure, ExitCodeFatal]

/-- C2 witness: a concrete environment whose daemonize step fails. -/
theorem c2_witness :
    isRunning (⟨false, "start", true, none, fun _ => true, fun _ _ => true,
        false, true, 42⟩ : Env) = none ∧
    ((StartServer ⟨false, "start", true, none, fun _ => true, fun _ _ => true,
        false, true, 42⟩).code = ExitCodeFailure ∧
      (StartServer ⟨false, "start", true, none, fun _ => true, fun _ _ => true,
        false, true, 42⟩).errNil = false ∧
      (StartServer ⟨false, "start", true, none, fun _ => true, fun _ _ => true,
        false, true, 42⟩).code ≠ ExitCodeFatal) :=
  ⟨rfl, c2_daemonize_or_pidwrite_failure_returns_failure _ rfl rfl rfl (Or.inl rfl)⟩

/-- C4: whenever no live instance exists — the PID file is absent or
unreadable, its content fails integer conversion, or the recorded PID
fails the liveness check — `StopServer` returns `Success` with a nil
error and sends no signal. -/
theorem c4_stop_without_live_instance_is_noop (env : Env)
    (hcmd : env.cmdIsNil = false) (hcd : env.chdirOk = true)
    (hidle : env.pidRead = none ∨
      (∃ s, env.pidRead = some s ∧ (goAtoi s).2 = true) ∨
      (∃ s, env.pidRead = some s ∧ (goAtoi s).2 = false ∧
        IsProcessRun env (goAtoi s).1 = false)) :
    StopServer env = ⟨ExitCodeSuccess, true, []⟩ := by
  have hrun : isRunning env = none := by
    rcases hidle with h | ⟨s, hs, he⟩ | ⟨s, hs, he, hp⟩
    · simp [isRunning, h]
    · simp [isRunning, hs, he]
    · simp [isRunning, hs, he, hp]
  simp [StopServer, hcmd, hcd, hrun]

/-- C4 witness: no PID file at all. -/
theorem c4_witness :
    StopServer ⟨false, "stop", true, none, fun _ => true, fun _ _ => true,
        true, true, 1⟩ = ⟨ExitCodeSuccess, true, []⟩ :=
  c4_stop_without_live_instance_is_noop _ rfl rfl (Or.inl rfl)

/-- C5: when a live PID exists (readable PID file, successful integer
conversion, positive liveness probe), `StopServer` sends exactly one
TERMINATE signal to that PID; delivery failure is reported as `Failure`
(1), never `Fatal` (2). -/
theorem c5_stop_live_sends_one_sigterm (env : Env) (s : String) (p : Int)
    (hcmd : env.cmdIsNil = false) (hcd : env.chdirOk = true)
    (hs : env.pidRead = some s) (ha : goAtoi s = (p, false))
    (hlive : IsProcessRun env p = true) :
    (StopServer env).signals = [(p, SIGTERM)] ∧
    (env.signalOk p SIGTERM = true →
      StopServer env = ⟨ExitCodeSuccess, true, [(p, SIGTERM)]⟩) ∧
    (env.signalOk p SIGTERM = false →
      (StopServer env).code = ExitCodeFailure ∧ (StopServer env).errNil = false ∧
      (StopServer env).code ≠ ExitCodeFatal) := by
  have hfind : env.findOk p = true := by
    have h2 := hlive
    rw [IsProcessRun, Bool.and_eq_true] at h2
    exact h2.1
  have hrun : isRunning env = some p := by
    simp [isRunning, hs, ha, hlive]
  have hstop : StopServer env =
      if env.signalOk p SIGTERM then ⟨ExitCodeSuccess, true, [(p, SIGTERM)]⟩
      else ⟨ExitCodeFailure, false, [(p, SIGTERM)]⟩ := by
    simp [StopServer, hcmd, hcd, hrun, SendSignal, hfind]
  cases hsig : env.signalOk p SIGTERM with
  | false =>
    rw [hstop, hsig]
    refine ⟨rfl, ?_, ?_⟩
    · intro h
      exact absurd h (by decide)
    · intro _
      exact ⟨rfl, rfl, failure_ne_fatal⟩
  | true =>
    rw [hstop, hsig]
    refine ⟨rfl, ?_, ?_⟩
    · intro _
      rfl
    · intro h
      exact absurd h (by decide)

/-- C5 witness: a live recorded PID 77 with successful delivery. -/
theorem c5_witness :
    (StopServer ⟨false, "stop", true, some "77", fun _ => true, fun _ _ => true,
        true, true, 1⟩).signals = [(77, SIGTERM)] ∧
    StopServer ⟨false, "stop", true, some "77", fun _ => true, fun _ _ => true,
        true, true, 1⟩ = ⟨ExitCodeSuccess, true, [(77, SIGTERM)]⟩ :=
  have h := c5_stop_live_sends_one_sigterm
    ⟨false, "stop", true, some "77", fun _ => true, fun _ _ => true, true, true, 1⟩
    "77" 77 rfl rfl rfl (by decide) rfl
  ⟨h.1, h.2.1 rfl⟩

/-- C6: when a live instance already exists, `StartServer` returns
`Success` with a nil error, does not daemonize, writes no PID file, and
leaves the PID file content unchanged. -/
theorem c6_start_with_live_instance_is_noop (env : Env) (s : String) (p : Int)
    (hcmd : env.cmdIsNil = false) (hcd : env.chdirOk = true)
    (hs : env.pidRead = some s) (ha : goAtoi s = (p, false))
    (hlive : IsProcessRun env p = true) :
    StartServer env = ⟨ExitCodeSuccess, true, false, false, env.pidRead, false⟩ := by
  have hrun : isRunning env = some p := by
    simp [isRunning, hs, ha, hlive]
  simp [StartServer, hcmd, hcd, hrun]

/-- C6 witness: a live recorded PID 88. -/
theorem c6_witness :
    StartServer ⟨false, "start", true, some "88", fun _ => true, fun _ _ => true,
        true, true, 3⟩ = ⟨ExitCodeSuccess, true, false, false, some "88", false⟩ :=
  c6_start_with_live_instance_is_noop
    ⟨false, "start", true, some "88", fun _ => true, fun _ _ => true, true, true, 3⟩
    "88" 88 rfl rfl rfl (by decide) rfl

/-- C10: when the PID file exists but its whole content does not parse
as a decimal integer, `isRunning` reports not-running (it has no error
outcome), `StartServer` behaves exactly as with no PID file at all (in
exit code, error nil-ness, daemonization and PID-file write), and
`StopServer` returns `Success` without signaling anyone. -/
theorem c10_unparsable_pidfile_means_not_running (env : Env) (s : String)
    (hcmd : env.cmdIsNil = false) (hcd : env.chdirOk = true)
    (hs : env.pidRead = some s) (hbad : (goAtoi s).2 = true) :
    isRunning env = none ∧
    ((StartServer env).code = (StartServer { env with pidRead := none }).code ∧
      (StartServer env).errNil = (StartServer { env with pidRead := none }).errNil ∧
      (StartServer env).daemonized =
        (StartServer { env with pidRead := none }).daemonized ∧
      (StartServer env).pidFileWritten =
        (StartServer { env with pidRead := none }).pidFileWritten) ∧
    StopServer env = ⟨ExitCodeSuccess, true, []⟩ := by
  have hrun : isRunning env = none := by
    simp [isRunning, hs, hbad]
  refine ⟨hrun, ?_, by simp [StopServer, hcmd, hcd, hrun]⟩
  have e1 : StartServer env =
      (if !env.daemonizeOk then
        ⟨ExitCodeFailure, false, false, false, env.pidRead, false⟩
      else if !env.writePidOk then
        ⟨ExitCodeFailure, false, true, false, env.pidRead, false⟩
      else ⟨ExitCodeSuccess, true, true, true, some (toString env.selfPid),
        env.cmdUse == "debug"⟩) := by
    simp [StartServer, hcmd, hcd, hrun]
  have e2 : StartServer { env with pidRead := none } =
      (if !env.daemonizeOk then ⟨ExitCodeFailure, false, false, false, none, false⟩
      else if !env.writePidOk then ⟨ExitCodeFailure, false, true, false, none, false⟩
      else ⟨ExitCodeSuccess, true, true, true, some (toString env.selfPid),
        env.cmdUse == "debug"⟩) := by
    simp [StartServer, hcmd, hcd, isRunning_none]
  rw [e1, e2]
  cases env.daemonizeOk <;> cases env.writePidOk <;> simp

/-- C10 witness: a PID file containing `1234` followed by a newline. -/
theorem c10_witness :
    (goAtoi "1234\n").2 = true ∧
    (isRunning (⟨false, "stop", true, some "1234\n", fun _ => true, fun _ _ => true,
        true, true, 9⟩ : Env) = none ∧
      StopServer ⟨false, "stop", true, some "1234\n", fun _ => true, fun _ _ => true,
        true, true, 9⟩ = ⟨ExitCodeSuccess, true, []⟩) :=
  have h := c10_unparsable_pidfile_means_not_running
    ⟨false, "stop", true, some "1234\n", fun _ => true, fun _ _ => true, true, true, 9⟩
    "1234\n" rfl rfl rfl (by decide)
  ⟨by decide, h.1, h.2.2⟩

end Weblin
